import Mathlib

/-!
Verification of the user-CRUD and upload request handlers of `src/server.js`
(an Express application). The handlers are embedded shallowly: each Express
handler becomes a pure Lean function from the current user collection (and the
request data) to a JSON-envelope response together with the new collection.
-/

namespace Server

/-- A user record, as stored in the in-memory `users` array of `server.js`
(`{ id, name, email }`). -/
structure User where
  id : Int
  name : String
  email : String
deriving Repr, DecidableEq

/-- The JSON response envelope produced by the user handlers: HTTP status,
`success` flag, optional `message`, optional `data` record. -/
structure Response where
  status : Nat
  success : Bool
  message : Option String
  data : Option User
deriving Repr, DecidableEq

/-- The three seed records of `server.js` (lines 43-47). -/
def seedUsers : List User :=
  [⟨1, "John Doe", "john@example.com"⟩,
   ⟨2, "Jane Smith", "jane@example.com"⟩,
   ⟨3, "Bob Johnson", "bob@example.com"⟩]

/-! ### `Number.parseInt`

`server.js` parses the `:id` path segment with `Number.parseInt(req.params.id)`
(no radix argument). Per ECMAScript `parseInt`: leading whitespace is skipped,
an optional sign is read, a `0x`/`0X` prefix switches to base 16, then the
longest run of digits of the radix is converted; if that run is empty the
result is `NaN`. We model the result as `Option Int`, `none` standing for
`NaN` (which compares unequal to every record id under `===`). -/

/-- Whitespace characters skipped by `parseInt`. -/
def isWhite (c : Char) : Bool :=
  c = ' ' ∨ c = '\t' ∨ c = '\n' ∨ c = '\r'

/-- The value of a character as a digit in the given radix, if it is one. -/
def digitVal (radix : Nat) (c : Char) : Option Nat :=
  let v : Option Nat :=
    if '0' ≤ c ∧ c ≤ '9' then some (c.toNat - '0'.toNat)
    else if 'a' ≤ c ∧ c ≤ 'z' then some (c.toNat - 'a'.toNat + 10)
    else if 'A' ≤ c ∧ c ≤ 'Z' then some (c.toNat - 'A'.toNat + 10)
    else none
  match v with
  | some n => if n < radix then some n else none
  | none => none

/-- Convert the longest leading run of radix digits, carrying the value read
so far (`none` while no digit has been seen, i.e. the `NaN` state). -/
def parseDigits (radix : Nat) : List Char → Option Nat → Option Nat
  | [], acc => acc
  | c :: rest, acc =>
    match digitVal radix c with
    | some d => parseDigits radix rest (some (acc.getD 0 * radix + d))
    | none => acc

/-- `Number.parseInt(s)` of `server.js`, `none` for `NaN`. -/
def parseIntJS (s : String) : Option Int :=
  let cs := s.data.dropWhile isWhite
  let sc : Int × List Char :=
    match cs with
    | c :: rest =>
      if c = '-' then (-1, rest)
      else if c = '+' then (1, rest)
      else (1, c :: rest)
    | [] => (1, [])
  let mag : Option Nat :=
    match sc.2 with
    | c0 :: c1 :: rest =>
      if c0 = '0' ∧ (c1 = 'x' ∨ c1 = 'X') then parseDigits 16 rest none
      else parseDigits 10 (c0 :: c1 :: rest) none
    | body => parseDigits 10 body none
  mag.map (fun m => sc.1 * (m : Int))

/-- A decimal digit character (exactly the characters `digitVal 10`
accepts, i.e. '0'..'9'). -/
def isDigit (c : Char) : Bool :=
  (digitVal 10 c).isSome

/-- The id value claim C8 predicts for a path segment beginning with digits:
the value of the maximal leading run of decimal digits (stated from the
claim's words, for comparison with `parseIntJS`). -/
def leadingDigitsVal (s : String) : Option Nat :=
  parseDigits 10 (s.data.takeWhile isDigit) none

/-! ### Request handlers -/

/-- The 404 envelope shared by the three `:id` handlers
(`{success:false, message:"User not found"}`). -/
def notFoundResp : Response :=
  ⟨404, false, some "User not found", none⟩

/-- `GET /api/users/:id` (lines 110-125): parse the id, linear-scan with
`users.find((u) => u.id === id)` (a `NaN` id matches nothing), 404 when
absent. -/
def getUser (users : List User) (idStr : String) : Response :=
  let found : Option User :=
    match parseIntJS idStr with
    | none => none
    | some n => users.find? (fun u => u.id == n)
  match found with
  | none => notFoundResp
  | some u => ⟨200, true, none, some u⟩

/-- Truthiness of a request-body field: present and not the empty string. -/
def truthy (v : Option String) : Bool :=
  match v with
  | none => false
  | some s => s ≠ ""

/-- `POST /api/users` (lines 128-151): require truthy `name` and `email`,
else 400; otherwise append `{id: users.length + 1, name, email}` and answer
201 with the new record. -/
def createUser (users : List User) (name? email? : Option String) :
    Response × List User :=
  if truthy name? ∧ truthy email? then
    match name?, email? with
    | some name, some email =>
      let newUser : User := ⟨(users.length : Int) + 1, name, email⟩
      (⟨201, true, some "User created successfully", some newUser⟩,
        users ++ [newUser])
    | _, _ => (⟨400, false, some "Name and email are required", none⟩, users)
  else
    (⟨400, false, some "Name and email are required", none⟩, users)

/-- The in-place field mutation of the `PUT` handler (lines 167-168):
`if (name) users[i].name = name; if (email) users[i].email = email`. -/
def applyBody (u : User) (name? email? : Option String) : User :=
  let u1 := if truthy name? then { u with name := name?.getD "" } else u
  if truthy email? then { u1 with email := email?.getD "" } else u1

/-- `PUT /api/users/:id` (lines 154-175): `findIndex` by parsed id, 404 when
absent (`NaN` included), otherwise overwrite the truthy body fields in place
and answer with the updated record. -/
def updateUser (users : List User) (idStr : String)
    (name? email? : Option String) : Response × List User :=
  let idx : Option Nat :=
    match parseIntJS idStr with
    | none => none
    | some n => users.findIdx? (fun u => u.id == n)
  match idx with
  | none => (notFoundResp, users)
  | some i =>
    match users[i]? with
    | none => (notFoundResp, users)
    | some u =>
      let u1 := applyBody u name? email?
      (⟨200, true, some "User updated successfully", some u1⟩,
        users.set i u1)

/-- `DELETE /api/users/:id` (lines 178-196): `findIndex` by parsed id, 404
when absent, otherwise `splice` the record out and answer with it. -/
def deleteUser (users : List User) (idStr : String) : Response × List User :=
  let idx : Option Nat :=
    match parseIntJS idStr with
    | none => none
    | some n => users.findIdx? (fun u => u.id == n)
  match idx with
  | none => (notFoundResp, users)
  | some i =>
    match users[i]? with
    | none => (notFoundResp, users)
    | some u =>
      (⟨200, true, some "User deleted successfully", some u⟩,
        users.eraseIdx i)

/-! ### `POST /api/upload` -/

/-- The data multer exposes about one multipart file. -/
structure UploadedFile where
  originalname : String
  mimetype : String
  size : Nat
deriving Repr, DecidableEq

/-- The MIME allow-list of the `fileFilter` (line 30). -/
def allowedTypes : List String := ["image/jpeg", "image/png", "image/gif"]

/-- The `fileFilter` of lines 28-36: accept iff the MIME type is allowed;
otherwise it raises `Error("Invalid file type. Only JPEG, PNG, GIF are
allowed.")`. -/
def fileFilterAccepts (f : UploadedFile) : Bool :=
  allowedTypes.contains f.mimetype

/-- The `fileSize` limit of line 27: 5 * 1024 * 1024 bytes. -/
def maxFileSize : Nat := 5 * 1024 * 1024

/-- The JSON envelope of the upload endpoint (no user record inside). -/
structure UploadResponse where
  status : Nat
  success : Bool
  message : String
deriving Repr, DecidableEq

/-- The observable outcome of one upload request: the response, and whether a
file was persisted to the uploads directory. -/
structure UploadOutcome where
  response : UploadResponse
  persisted : Bool
deriving Repr, DecidableEq

/-- Modelled from the spec: the multipart layer (multer, not part of `src/`)
runs the `fileFilter` of lines 28-36 before accepting data, so a file it
rejects is never written to the uploads directory; the raised `Error` reaches
the error middleware of lines 89-97, which answers 400 with the error's
message. A file accepted by the filter but exceeding the `fileSize` limit is
rejected by the size layer as a `MulterError`, also answered with 400 and not
persisted. An accepted file is stored on disk, and the handler of lines 72-88
answers 200; with no file field at all the handler answers 400 (line 74). -/
def handleUpload (file? : Option UploadedFile) : UploadOutcome :=
  match file? with
  | none => ⟨⟨400, false, "No file uploaded or invalid file type."⟩, false⟩
  | some f =>
    if ¬ fileFilterAccepts f then
      ⟨⟨400, false, "Invalid file type. Only JPEG, PNG, GIF are allowed."⟩,
        false⟩
    else if maxFileSize < f.size then
      ⟨⟨400, false, "File too large"⟩, false⟩
    else
      ⟨⟨200, true, "Image uploaded and health checked successfully!"⟩, true⟩

/-! ### Request sequences -/

/-- One state-changing API request, for reasoning about reachable collection
states. -/
inductive Op where
  | create (name? email? : Option String)
  | update (idStr : String) (name? email? : Option String)
  | delete (idStr : String)
deriving Repr, DecidableEq

/-- Whether a request is a DELETE (used to state which sequences preserve id
uniqueness). -/
def isDelete : Op → Bool
  | .delete _ => true
  | _ => false

/-- The collection after one request, whatever the response status. -/
def applyOp (users : List User) : Op → List User
  | .create n e => (createUser users n e).2
  | .update s n e => (updateUser users s n e).2
  | .delete s => (deleteUser users s).2

/-- The collection after a sequence of requests. -/
def applyOps (users : List User) (ops : List Op) : List User :=
  ops.foldl applyOp users

/-! ## Theorems -/

/-! ### Helper lemmas -/

/-- The `PUT` body assignment never touches the id field. -/
theorem applyBody_id (u : User) (name? email? : Option String) :
    (applyBody u name? email?).id = u.id := by
  simp only [applyBody]
  split <;> split <;> rfl

/-- The behaviour of `PUT /api/users/:id` when the lookup succeeds. -/
theorem updateUser_found (users : List User) (idStr : String) (n : Int)
    (i : Nat) (name? email? : Option String)
    (hparse : parseIntJS idStr = some n)
    (hfind : users.findIdx? (fun u => u.id == n) = some i)
    (hi : i < users.length) :
    updateUser users idStr name? email? =
      (⟨200, true, some "User updated successfully",
         some (applyBody users[i] name? email?)⟩,
       users.set i (applyBody users[i] name? email?)) := by
  simp only [updateUser, hparse, List.getElem?_eq_getElem hi, hfind]

/-- The behaviour of `DELETE /api/users/:id` when the lookup succeeds. -/
theorem deleteUser_found (users : List User) (idStr : String) (n : Int)
    (i : Nat)
    (hparse : parseIntJS idStr = some n)
    (hfind : users.findIdx? (fun u => u.id == n) = some i)
    (hi : i < users.length) :
    deleteUser users idStr =
      (⟨200, true, some "User deleted successfully", some users[i]⟩,
       users.eraseIdx i) := by
  simp only [deleteUser, hparse, List.getElem?_eq_getElem hi, hfind]

/-- `find?` selects the first match of a decomposed list. -/
theorem find_first (p : User → Bool) (pre post : List User) (u : User)
    (hpre : ∀ x ∈ pre, p x = false) (hu : p u = true) :
    (pre ++ u :: post).find? p = some u := by
  induction pre with
  | nil => simp [List.find?_cons, hu]
  | cons a t ih =>
    have ha : p a = false := hpre a (List.mem_cons_self a t)
    have ih' := ih (fun x hx => hpre x (List.mem_cons_of_mem a hx))
    simp [List.find?_cons, ha, ih']

/-- `findIdx?` selects the index of the first match of a decomposed list. -/
theorem findIdx_first (p : User → Bool) (pre post : List User) (u : User)
    (hpre : ∀ x ∈ pre, p x = false) (hu : p u = true) :
    (pre ++ u :: post).findIdx? p = some pre.length := by
  induction pre with
  | nil => simp [hu]
  | cons a t ih =>
    have ha : p a = false := hpre a (List.mem_cons_self a t)
    have ih' := ih (fun x hx => hpre x (List.mem_cons_of_mem a hx))
    simp [List.findIdx?_cons, ha, ih']

/-- Reading a decomposed list at the pivot index. -/
theorem getElem_append_len (pre post : List User) (u : User) :
    (pre ++ u :: post)[pre.length]? = some u := by
  induction pre with
  | nil => simp
  | cons a t ih => simpa using ih

/-- Setting a decomposed list at the pivot index. -/
theorem set_append_len (pre post : List User) (u v : User) :
    (pre ++ u :: post).set pre.length v = pre ++ v :: post := by
  induction pre with
  | nil => rfl
  | cons a t ih => simp [ih]

/-- Erasing a decomposed list at the pivot index. -/
theorem eraseIdx_append_len (pre post : List User) (u : User) :
    (pre ++ u :: post).eraseIdx pre.length = pre ++ post := by
  induction pre with
  | nil => rfl
  | cons a t ih => simpa using ih

/-- Reading a decomposed list at the pivot index, without the option. -/
theorem getElem_append_pivot (pre post : List User) (u : User)
    (hi : pre.length < (pre ++ u :: post).length) :
    (pre ++ u :: post)[pre.length] = u := by
  have h := getElem_append_len pre post u
  rw [List.getElem?_eq_getElem hi] at h
  exact Option.some.inj h

/-- Writing back the element already present leaves a list unchanged. -/
theorem set_ids_self (l : List Int) (i : Nat) (hi : i < l.length) :
    l.set i l[i] = l := by
  induction l generalizing i with
  | nil => simp at hi
  | cons a t ih =>
    cases i with
    | zero => simp
    | succ k => simp [ih k (by simpa using hi)]

/-- A PUT request never changes the sequence of ids. -/
theorem updateUser_ids (users : List User) (idStr : String)
    (name? email? : Option String) :
    (updateUser users idStr name? email?).2.map User.id =
      users.map User.id := by
  cases hp : parseIntJS idStr with
  | none => simp [updateUser, hp]
  | some n =>
    cases hf : users.findIdx? (fun u => u.id == n) with
    | none => simp [updateUser, hp, hf]
    | some i =>
      obtain ⟨hi, -, -⟩ := List.findIdx?_eq_some_iff_getElem.mp hf
      rw [updateUser_found users idStr n i name? email? hp hf hi]
      have hi' : i < (users.map User.id).length := by simpa using hi
      have hm : (users.map User.id)[i] = users[i].id :=
        List.getElem_map User.id
      rw [List.map_set, applyBody_id, ← hm, set_ids_self _ i hi']

/-- A create request preserves the id invariant: pairwise-distinct ids, all
bounded by the collection length. -/
theorem createUser_inv (users : List User) (name? email? : Option String)
    (hnd : (users.map User.id).Nodup)
    (hb : ∀ u ∈ users, u.id ≤ (users.length : Int)) :
    ((createUser users name? email?).2.map User.id).Nodup ∧
    ∀ u ∈ (createUser users name? email?).2,
      u.id ≤ ((createUser users name? email?).2.length : Int) := by
  by_cases h : truthy name? = true ∧ truthy email? = true
  · obtain ⟨h1, h2⟩ := h
    cases name? with
    | none => simp [truthy] at h1
    | some name =>
      cases email? with
      | none => simp [truthy] at h2
      | some email =>
        have hres : (createUser users (some name) (some email)).2 =
            users ++ [⟨(users.length : Int) + 1, name, email⟩] := by
          simp [createUser, h1, h2]
        rw [hres]
        constructor
        · rw [List.map_append]
          refine List.Nodup.append hnd (List.nodup_singleton _) ?_
          rw [List.map_singleton, List.disjoint_singleton]
          intro hmem
          obtain ⟨u, hu, hid⟩ := List.mem_map.mp hmem
          have hub := hb u hu
          have hub2 : (users.length : Int) + 1 ≤ (users.length : Int) := by
            rw [hid] at hub
            exact hub
          omega
        · intro u hu
          rcases List.mem_append.mp hu with h' | h'
          · have hub := hb u h'
            simp only [List.length_append, List.length_cons,
              List.length_nil]
            push_cast
            omega
          · simp only [List.mem_singleton] at h'
            subst h'
            simp only [List.length_append, List.length_cons,
              List.length_nil]
            push_cast
            omega
  · have hres : (createUser users name? email?).2 = users := by
      unfold createUser
      rw [if_neg h]
    rw [hres]
    exact ⟨hnd, hb⟩

/-- Every delete-free sequence of requests preserves the id invariant. -/
theorem applyOps_inv (ops : List Op) :
    ∀ users : List User,
      (∀ op ∈ ops, isDelete op = false) →
      (users.map User.id).Nodup →
      (∀ u ∈ users, u.id ≤ (users.length : Int)) →
      ((applyOps users ops).map User.id).Nodup ∧
      ∀ u ∈ applyOps users ops,
        u.id ≤ ((applyOps users ops).length : Int) := by
  induction ops with
  | nil => exact fun users _ hnd hb => ⟨hnd, hb⟩
  | cons op rest ih =>
    intro users h hnd hb
    have hop : isDelete op = false := h op (List.mem_cons_self op rest)
    have hrest : ∀ o ∈ rest, isDelete o = false :=
      fun o ho => h o (List.mem_cons_of_mem op ho)
    have hstep : applyOps users (op :: rest) =
        applyOps (applyOp users op) rest := rfl
    rw [hstep]
    cases op with
    | create n e =>
      have hc := createUser_inv users n e hnd hb
      exact ih (applyOp users (.create n e)) hrest hc.1 hc.2
    | update s n e =>
      have hids := updateUser_ids users s n e
      have hlen : (updateUser users s n e).2.length = users.length := by
        have hc := congrArg List.length hids
        simpa using hc
      apply ih (applyOp users (.update s n e)) hrest
      · show ((updateUser users s n e).2.map User.id).Nodup
        rw [hids]
        exact hnd
      · intro u hu
        have hmem : u.id ∈ (updateUser users s n e).2.map User.id :=
          List.mem_map.mpr ⟨u, hu, rfl⟩
        rw [hids] at hmem
        obtain ⟨v, hv, hvid⟩ := List.mem_map.mp hmem
        show u.id ≤ ((updateUser users s n e).2.length : Int)
        rw [hlen, ← hvid]
        exact hb v hv
    | delete s => simp [isDelete] at hop

/-- A decimal digit is not parseInt whitespace. -/
theorem not_white_of_digit (c : Char) (h : digitVal 10 c ≠ none) :
    isWhite c = false := by
  cases hw : isWhite c
  · rfl
  · exfalso
    simp only [isWhite, decide_eq_true_eq] at hw
    rcases hw with h1 | h1 | h1 | h1 <;> (subst h1; exact h (by decide))

/-- A character with a digit value differs from any character without one. -/
theorem digit_ne (c : Char) (h : digitVal 10 c ≠ none) (a : Char)
    (ha : digitVal 10 a = none) : c ≠ a :=
  fun he => h (he ▸ ha)

/-- Digit conversion stops at the first non-digit. -/
theorem parseDigits_stop (radix : Nat) (ds : List Char) (t : Char)
    (ts : List Char) (acc : Option Nat) (ht : digitVal radix t = none) :
    parseDigits radix (ds ++ t :: ts) acc = parseDigits radix ds acc := by
  induction ds generalizing acc with
  | nil => simp [parseDigits, ht]
  | cons c r ih =>
    cases h : digitVal radix c with
    | none => simp [parseDigits, h]
    | some d => simp [parseDigits, h, ih]

/-- Once a digit has been read, digit conversion returns a value. -/
theorem parseDigits_some (radix : Nat) (l : List Char) (x : Nat) :
    ∃ y, parseDigits radix l (some x) = some y := by
  induction l generalizing x with
  | nil => exact ⟨x, rfl⟩
  | cons c r ih =>
    cases h : digitVal radix c with
    | none => exact ⟨x, by simp [parseDigits, h]⟩
    | some d =>
      obtain ⟨y, hy⟩ := ih (x * radix + d)
      exact ⟨y, by simpa [parseDigits, h] using hy⟩

/-- `takeWhile` of a digit run followed by a non-digit is the run itself. -/
theorem takeWhile_digits (ds : List Char) (t : Char) (ts : List Char)
    (hds : ∀ c ∈ ds, isDigit c = true) (ht : isDigit t = false) :
    (ds ++ t :: ts).takeWhile isDigit = ds := by
  induction ds with
  | nil => simp [List.takeWhile_cons, ht]
  | cons c r ih =>
    have hc := hds c (List.mem_cons_self c r)
    have ih' := ih (fun x hx => hds x (List.mem_cons_of_mem c hx))
    simp [List.takeWhile_cons, hc, ih']

/-! ### The claims -/

/-- Claim C1: for every collection state and every create request whose body
has truthy (present, non-empty) name and email, POST /api/users answers 201,
appends a record whose id is the collection length before the insert plus 1,
and returns that record in the response data. -/
theorem createUser_valid (users : List User) (name email : String)
    (hn : name ≠ "") (he : email ≠ "") :
    createUser users (some name) (some email) =
      (⟨201, true, some "User created successfully",
         some ⟨(users.length : Int) + 1, name, email⟩⟩,
       users ++ [⟨(users.length : Int) + 1, name, email⟩]) := by
  simp [createUser, truthy, hn, he]

/-- Witness for C1: creating Ann on the three seed records yields id 4. -/
theorem createUser_valid_witness :
    createUser seedUsers (some "Ann") (some "ann@x.com") =
      (⟨201, true, some "User created successfully",
         some ⟨4, "Ann", "ann@x.com"⟩⟩,
       seedUsers ++ [⟨4, "Ann", "ann@x.com"⟩]) := by
  have h := createUser_valid seedUsers "Ann" "ann@x.com"
    (by decide) (by decide)
  simpa [seedUsers] using h

/-- Claim C5: a GET /api/users/:id whose id segment parses to the NaN
sentinel (none) matches no record and answers 404 with
`{success:false, message:"User not found"}`. -/
theorem getUser_nonNumeric (users : List User) (idStr : String)
    (h : parseIntJS idStr = none) :
    getUser users idStr = ⟨404, false, some "User not found", none⟩ := by
  simp [getUser, h, notFoundResp]

/-- Witness for C5: GET with id "abc" on the seed records is a 404. -/
theorem getUser_nonNumeric_witness :
    parseIntJS "abc" = none ∧
    getUser seedUsers "abc" = ⟨404, false, some "User not found", none⟩ :=
  ⟨by decide, getUser_nonNumeric seedUsers "abc" (by decide)⟩

/-- Claim C6: a POST /api/users whose name or email is missing or empty
answers 400 with `{success:false, message:"Name and email are required"}` and
leaves the collection exactly unchanged. -/
theorem createUser_missing (users : List User) (name? email? : Option String)
    (h : ¬(truthy name? = true ∧ truthy email? = true)) :
    createUser users name? email? =
      (⟨400, false, some "Name and email are required", none⟩, users) := by
  unfold createUser
  rw [if_neg h]

/-- Witness for C6: creating `{name:"Bo"}` with no email on the seed records
is a 400 and the three records stay as they were. -/
theorem createUser_missing_witness :
    createUser seedUsers (some "Bo") none =
      (⟨400, false, some "Name and email are required", none⟩, seedUsers) :=
  createUser_missing seedUsers (some "Bo") none (by decide)

/-- Claim C3: a PUT /api/users/:id that reaches the record found by the
lookup and whose body supplies only a truthy name overwrites that record's
name and keeps its email; symmetrically for a body supplying only email; the
response carries the updated record. -/
theorem updateUser_partial_update (users : List User) (idStr : String)
    (n : Int) (i : Nat) (name email : String)
    (hn : name ≠ "") (he : email ≠ "")
    (hparse : parseIntJS idStr = some n)
    (hfind : users.findIdx? (fun u => u.id == n) = some i)
    (hi : i < users.length) :
    updateUser users idStr (some name) none =
      (⟨200, true, some "User updated successfully",
         some ⟨users[i].id, name, users[i].email⟩⟩,
       users.set i ⟨users[i].id, name, users[i].email⟩) ∧
    updateUser users idStr none (some email) =
      (⟨200, true, some "User updated successfully",
         some ⟨users[i].id, users[i].name, email⟩⟩,
       users.set i ⟨users[i].id, users[i].name, email⟩) := by
  have h1 := updateUser_found users idStr n i (some name) none hparse hfind hi
  have h2 := updateUser_found users idStr n i none (some email) hparse hfind hi
  have e1 : applyBody users[i] (some name) none =
      ⟨users[i].id, name, users[i].email⟩ := by
    simp [applyBody, truthy, hn]
  have e2 : applyBody users[i] none (some email) =
      ⟨users[i].id, users[i].name, email⟩ := by
    simp [applyBody, truthy, he]
  rw [e1] at h1
  rw [e2] at h2
  exact ⟨h1, h2⟩

/-- Witness for C3: renaming Jane (id 2) keeps her email, and changing her
email keeps her name. -/
theorem updateUser_partial_update_witness :
    updateUser seedUsers "2" (some "Janet") none =
      (⟨200, true, some "User updated successfully",
         some ⟨2, "Janet", "jane@example.com"⟩⟩,
       [⟨1, "John Doe", "john@example.com"⟩,
        ⟨2, "Janet", "jane@example.com"⟩,
        ⟨3, "Bob Johnson", "bob@example.com"⟩]) ∧
    updateUser seedUsers "2" none (some "janet@x.com") =
      (⟨200, true, some "User updated successfully",
         some ⟨2, "Jane Smith", "janet@x.com"⟩⟩,
       [⟨1, "John Doe", "john@example.com"⟩,
        ⟨2, "Jane Smith", "janet@x.com"⟩,
        ⟨3, "Bob Johnson", "bob@example.com"⟩]) := by
  have h := updateUser_partial_update seedUsers "2" 2 1 "Janet" "janet@x.com"
    (by decide) (by decide) (by decide) (by decide) (by decide)
  exact ⟨h.1.trans (by decide), h.2.trans (by decide)⟩

/-- Claim C10: a successful PUT /api/users/:id keeps the collection length,
keeps the targeted record's id, and leaves every other record exactly
unchanged. -/
theorem updateUser_frame (users : List User) (idStr : String)
    (name? email? : Option String)
    (hs : (updateUser users idStr name? email?).1.success = true) :
    ∃ i, i < users.length ∧
      (updateUser users idStr name? email?).2.length = users.length ∧
      (updateUser users idStr name? email?).2[i]?.map User.id =
        users[i]?.map User.id ∧
      ∀ j, j ≠ i → (updateUser users idStr name? email?).2[j]? = users[j]? := by
  cases hp : parseIntJS idStr with
  | none => simp [updateUser, hp, notFoundResp] at hs
  | some n =>
    cases hf : users.findIdx? (fun u => u.id == n) with
    | none => simp [updateUser, hp, hf, notFoundResp] at hs
    | some i =>
      obtain ⟨hi, -, -⟩ := List.findIdx?_eq_some_iff_getElem.mp hf
      have key := updateUser_found users idStr n i name? email? hp hf hi
      rw [key]
      refine ⟨i, hi, by simp, ?_, ?_⟩
      · simp [List.getElem?_set_self hi, List.getElem?_eq_getElem hi,
          applyBody_id]
      · intro j hj
        exact List.getElem?_set_ne (fun h => hj h.symm)

/-- Witness for C10: the frame property at a successful concrete PUT. -/
theorem updateUser_frame_witness :
    ∃ i, i < seedUsers.length ∧
      (updateUser seedUsers "2" (some "Janet") none).2.length =
        seedUsers.length ∧
      (updateUser seedUsers "2" (some "Janet") none).2[i]?.map User.id =
        seedUsers[i]?.map User.id ∧
      ∀ j, j ≠ i →
        (updateUser seedUsers "2" (some "Janet") none).2[j]? =
          seedUsers[j]? :=
  updateUser_frame seedUsers "2" (some "Janet") none (by decide)

/-- Claim C7: a POST /api/upload whose file has a MIME type outside
{image/jpeg, image/png, image/gif} answers 400 with the filter's descriptive
message and persists no file. -/
theorem handleUpload_bad_type (f : UploadedFile)
    (h : allowedTypes.contains f.mimetype = false) :
    handleUpload (some f) =
      ⟨⟨400, false, "Invalid file type. Only JPEG, PNG, GIF are allowed."⟩,
        false⟩ := by
  have h' : f.mimetype ∉ allowedTypes := by simpa using h
  simp [handleUpload, fileFilterAccepts, h']

/-- Witness for C7: uploading a text/plain file is rejected, not persisted. -/
theorem handleUpload_bad_type_witness :
    handleUpload (some ⟨"notes.txt", "text/plain", 12⟩) =
      ⟨⟨400, false, "Invalid file type. Only JPEG, PNG, GIF are allowed."⟩,
        false⟩ :=
  handleUpload_bad_type ⟨"notes.txt", "text/plain", 12⟩ (by decide)

/-- Counterexample for C2: the reachable sequence "delete id 1, then create
Ann" turns the seed collection into one whose ids are 2, 3, 3 — not pairwise
distinct. -/
theorem ids_distinct_counterexample :
    applyOps seedUsers
        [.delete "1", .create (some "Ann") (some "ann@x.com")] =
      [⟨2, "Jane Smith", "jane@example.com"⟩,
       ⟨3, "Bob Johnson", "bob@example.com"⟩,
       ⟨3, "Ann", "ann@x.com"⟩] ∧
    ¬ ((applyOps seedUsers
        [.delete "1", .create (some "Ann") (some "ann@x.com")]).map
          User.id).Nodup := by
  constructor
  · decide
  · decide

/-- Claim C2 (amended): starting from the three seed records, the ids remain
pairwise distinct under every sequence of create and update requests; once a
delete is allowed, a subsequent create can duplicate an id (see the
counterexample). -/
theorem seed_ids_distinct_no_delete (ops : List Op)
    (h : ∀ op ∈ ops, isDelete op = false) :
    ((applyOps seedUsers ops).map User.id).Nodup :=
  (applyOps_inv ops seedUsers h (by decide) (by decide)).1

/-- Witness for C2 (amended): a concrete delete-free sequence keeps the ids
distinct. -/
theorem seed_ids_distinct_no_delete_witness :
    ((applyOps seedUsers
        [.create (some "Ann") (some "ann@x.com"),
         .update "2" (some "Janet") none,
         .create (some "Cy") (some "cy@x.com")]).map User.id).Nodup :=
  seed_ids_distinct_no_delete
    [.create (some "Ann") (some "ann@x.com"),
     .update "2" (some "Janet") none,
     .create (some "Cy") (some "cy@x.com")]
    (by decide)

/-- Claim C9: when the collection splits as `pre ++ u :: post` with `u` the
first record carrying the requested id, GET returns `u`, PUT rewrites exactly
`u` in place, and DELETE removes exactly `u`; the records of `post` — any
later duplicate of the id included — are untouched. -/
theorem first_match_wins (pre post : List User) (u : User) (idStr : String)
    (n : Int) (name? email? : Option String)
    (hparse : parseIntJS idStr = some n)
    (hu : u.id = n)
    (hpre : ∀ x ∈ pre, x.id ≠ n) :
    getUser (pre ++ u :: post) idStr = ⟨200, true, none, some u⟩ ∧
    updateUser (pre ++ u :: post) idStr name? email? =
      (⟨200, true, some "User updated successfully",
         some (applyBody u name? email?)⟩,
       pre ++ applyBody u name? email? :: post) ∧
    deleteUser (pre ++ u :: post) idStr =
      (⟨200, true, some "User deleted successfully", some u⟩,
       pre ++ post) := by
  have hpb : ∀ x ∈ pre, (fun x => x.id == n) x = false := by
    intro x hx
    simpa using hpre x hx
  have hub : (fun x => x.id == n) u = true := by simpa using hu
  have hfind := findIdx_first _ pre post u hpb hub
  have hfd := find_first _ pre post u hpb hub
  have hi : pre.length < (pre ++ u :: post).length := by
    simp only [List.length_append, List.length_cons]
    omega
  have hget := getElem_append_pivot pre post u hi
  refine ⟨?_, ?_, ?_⟩
  · simp [getUser, hparse, hfd]
  · have key := updateUser_found (pre ++ u :: post) idStr n pre.length
      name? email? hparse hfind hi
    rw [key, hget, set_append_len]
  · have key := deleteUser_found (pre ++ u :: post) idStr n pre.length
      hparse hfind hi
    rw [key, hget, eraseIdx_append_len]

/-- Witness for C9: in the reachable duplicate state `[Jane(2), Bob(3),
Ann(3)]`, GET 3 returns Bob, PUT 3 renames only Bob, DELETE 3 removes only
Bob; Ann's record is untouched. -/
theorem first_match_wins_witness :
    getUser [⟨2, "Jane Smith", "jane@example.com"⟩,
       ⟨3, "Bob Johnson", "bob@example.com"⟩,
       ⟨3, "Ann", "ann@x.com"⟩] "3" =
      ⟨200, true, none, some ⟨3, "Bob Johnson", "bob@example.com"⟩⟩ ∧
    updateUser [⟨2, "Jane Smith", "jane@example.com"⟩,
       ⟨3, "Bob Johnson", "bob@example.com"⟩,
       ⟨3, "Ann", "ann@x.com"⟩] "3" (some "Bobby") none =
      (⟨200, true, some "User updated successfully",
         some ⟨3, "Bobby", "bob@example.com"⟩⟩,
       [⟨2, "Jane Smith", "jane@example.com"⟩,
        ⟨3, "Bobby", "bob@example.com"⟩,
        ⟨3, "Ann", "ann@x.com"⟩]) ∧
    deleteUser [⟨2, "Jane Smith", "jane@example.com"⟩,
       ⟨3, "Bob Johnson", "bob@example.com"⟩,
       ⟨3, "Ann", "ann@x.com"⟩] "3" =
      (⟨200, true, some "User deleted successfully",
         some ⟨3, "Bob Johnson", "bob@example.com"⟩⟩,
       [⟨2, "Jane Smith", "jane@example.com"⟩,
        ⟨3, "Ann", "ann@x.com"⟩]) := by
  have h := first_match_wins [⟨2, "Jane Smith", "jane@example.com"⟩]
    [⟨3, "Ann", "ann@x.com"⟩] ⟨3, "Bob Johnson", "bob@example.com"⟩
    "3" 3 (some "Bobby") none (by decide) (by decide) (by decide)
  exact ⟨h.1.trans (by decide), h.2.1.trans (by decide),
    h.2.2.trans (by decide)⟩

/-- Counterexample for C4: in the reachable state `[Jane(2), Bob(3), Ann(3)]`
(delete id 1, then create Ann), deleting id 3 succeeds, yet the immediately
subsequent GET for id 3 still answers 200 with the later duplicate instead of
not-found. -/
theorem delete_then_get_counterexample :
    applyOps seedUsers
        [.delete "1", .create (some "Ann") (some "ann@x.com")] =
      [⟨2, "Jane Smith", "jane@example.com"⟩,
       ⟨3, "Bob Johnson", "bob@example.com"⟩,
       ⟨3, "Ann", "ann@x.com"⟩] ∧
    (deleteUser [⟨2, "Jane Smith", "jane@example.com"⟩,
       ⟨3, "Bob Johnson", "bob@example.com"⟩,
       ⟨3, "Ann", "ann@x.com"⟩] "3").1.status = 200 ∧
    getUser (deleteUser [⟨2, "Jane Smith", "jane@example.com"⟩,
       ⟨3, "Bob Johnson", "bob@example.com"⟩,
       ⟨3, "Ann", "ann@x.com"⟩] "3").2 "3" =
      ⟨200, true, none, some ⟨3, "Ann", "ann@x.com"⟩⟩ := by
  refine ⟨by decide, by decide, by decide⟩

/-- Claim C4 (amended): DELETE for an id present removes exactly the first
record carrying it — the length drops by one and the remaining records keep
their relative order — and returns the removed record; provided no other
record carries that id, an immediately subsequent GET for it answers
not-found. -/
theorem deleteUser_removes (pre post : List User) (u : User) (idStr : String)
    (n : Int)
    (hparse : parseIntJS idStr = some n)
    (hu : u.id = n)
    (hpre : ∀ x ∈ pre, x.id ≠ n) :
    deleteUser (pre ++ u :: post) idStr =
      (⟨200, true, some "User deleted successfully", some u⟩, pre ++ post) ∧
    (pre ++ post).length + 1 = (pre ++ u :: post).length ∧
    ((∀ x ∈ post, x.id ≠ n) →
      getUser (pre ++ post) idStr =
        ⟨404, false, some "User not found", none⟩) := by
  have hpb : ∀ x ∈ pre, (fun x => x.id == n) x = false := by
    intro x hx
    simpa using hpre x hx
  have hub : (fun x => x.id == n) u = true := by simpa using hu
  have hfind := findIdx_first _ pre post u hpb hub
  have hi : pre.length < (pre ++ u :: post).length := by
    simp only [List.length_append, List.length_cons]
    omega
  have hget := getElem_append_pivot pre post u hi
  refine ⟨?_, ?_, ?_⟩
  · have key := deleteUser_found (pre ++ u :: post) idStr n pre.length
      hparse hfind hi
    rw [key, hget, eraseIdx_append_len]
  · simp only [List.length_append, List.length_cons]
    omega
  · intro hpost
    have hnone : (pre ++ post).find? (fun x => x.id == n) = none := by
      rw [List.find?_eq_none]
      intro x hx
      rcases List.mem_append.mp hx with h' | h'
      · simpa using hpre x h'
      · simpa using hpost x h'
    simp [getUser, hparse, hnone, notFoundResp]

/-- Witness for C4 (amended): deleting Jane (id 2) from the seed records
removes exactly her record and the follow-up GET 2 is a 404. -/
theorem deleteUser_removes_witness :
    deleteUser [⟨1, "John Doe", "john@example.com"⟩,
        ⟨2, "Jane Smith", "jane@example.com"⟩,
        ⟨3, "Bob Johnson", "bob@example.com"⟩] "2" =
      (⟨200, true, some "User deleted successfully",
         some ⟨2, "Jane Smith", "jane@example.com"⟩⟩,
       [⟨1, "John Doe", "john@example.com"⟩,
        ⟨3, "Bob Johnson", "bob@example.com"⟩]) ∧
    getUser [⟨1, "John Doe", "john@example.com"⟩,
        ⟨3, "Bob Johnson", "bob@example.com"⟩] "2" =
      ⟨404, false, some "User not found", none⟩ := by
  have h := deleteUser_removes [⟨1, "John Doe", "john@example.com"⟩]
    [⟨3, "Bob Johnson", "bob@example.com"⟩]
    ⟨2, "Jane Smith", "jane@example.com"⟩ "2" 2
    (by decide) (by decide) (by decide)
  exact ⟨h.1.trans (by decide), (h.2.2 (by decide)).trans (by decide)⟩

/-- Counterexample for C8: "0x2" begins with the digit sequence "0" followed
by trailing non-digits, so the claim predicts the parse 0; `Number.parseInt`
reads the 0x prefix as hexadecimal and yields 2 instead, and GET therefore
operates on the record with id 2. -/
theorem digit_trail_counterexample :
    leadingDigitsVal "0x2" = some 0 ∧
    parseIntJS "0x2" = some 2 ∧
    getUser seedUsers "0x2" =
      ⟨200, true, none, some ⟨2, "Jane Smith", "jane@example.com"⟩⟩ := by
  refine ⟨by decide, by decide, by decide⟩

/-- Claim C8 (amended): an :id segment made of a digit sequence followed by
trailing non-digit characters parses to the value of that leading decimal
digit run — provided the segment is not a 0x/0X hexadecimal form — and GET,
PUT and DELETE then look up and operate on the record with that id rather
than falling through to not-found. -/
theorem digit_trail_parses (s : String) (ds ts : List Char) (t : Char)
    (hsplit : s.data = ds ++ t :: ts)
    (hne : ds ≠ [])
    (hds : ∀ c ∈ ds, isDigit c = true)
    (ht : isDigit t = false)
    (hnx : ds = ['0'] → (t ≠ 'x' ∧ t ≠ 'X')) :
    ∃ v : Nat,
      leadingDigitsVal s = some v ∧
      parseIntJS s = some (v : Int) ∧
      (∀ users : List User, ∀ u : User,
        users.find? (fun x => x.id == (v : Int)) = some u →
          getUser users s = ⟨200, true, none, some u⟩) ∧
      (∀ users : List User, ∀ i : Nat, ∀ name? email? : Option String,
        ∀ _hf : users.findIdx? (fun x => x.id == (v : Int)) = some i,
        ∀ hl : i < users.length,
          updateUser users s name? email? =
            (⟨200, true, some "User updated successfully",
               some (applyBody (users.get ⟨i, hl⟩) name? email?)⟩,
             users.set i (applyBody (users.get ⟨i, hl⟩) name? email?))) ∧
      (∀ users : List User, ∀ i : Nat,
        ∀ _hf : users.findIdx? (fun x => x.id == (v : Int)) = some i,
        ∀ hl : i < users.length,
          deleteUser users s =
            (⟨200, true, some "User deleted successfully",
               some (users.get ⟨i, hl⟩)⟩,
             users.eraseIdx i)) := by
  rcases ds with _ | ⟨d, dsr⟩
  · exact absurd rfl hne
  have hd : isDigit d = true := hds d (List.mem_cons_self d dsr)
  have hdv : digitVal 10 d ≠ none := by
    intro hn
    simp only [isDigit, hn, Option.isSome_none] at hd
    exact Bool.false_ne_true hd
  have htv : digitVal 10 t = none := by
    cases h : digitVal 10 t with
    | none => rfl
    | some dd => simp [isDigit, h] at ht
  have hwhite : isWhite d = false := not_white_of_digit d hdv
  have hminus : d ≠ '-' := digit_ne d hdv '-' (by decide)
  have hplus : d ≠ '+' := digit_ne d hdv '+' (by decide)
  have hsdata : s.data = d :: (dsr ++ t :: ts) := by simpa using hsplit
  have hdrop : s.data.dropWhile isWhite = d :: (dsr ++ t :: ts) := by
    rw [hsdata, List.dropWhile_cons, hwhite]
    simp
  have hmagbody : parseDigits 10 (d :: (dsr ++ t :: ts)) none =
      parseDigits 10 (d :: dsr) none := by
    have h := parseDigits_stop 10 (d :: dsr) t ts none htv
    simpa using h
  have hsome : ∃ v, parseDigits 10 (d :: dsr) none = some v := by
    cases hdd : digitVal 10 d with
    | none => exact absurd hdd hdv
    | some dd =>
      obtain ⟨y, hy⟩ := parseDigits_some 10 dsr dd
      refine ⟨y, ?_⟩
      simpa [parseDigits, hdd] using hy
  obtain ⟨v, hv⟩ := hsome
  have hcond : ∃ c1 rest1, dsr ++ t :: ts = c1 :: rest1 ∧
      ¬(d = '0' ∧ (c1 = 'x' ∨ c1 = 'X')) := by
    cases dsr with
    | nil =>
      refine ⟨t, ts, rfl, ?_⟩
      rintro ⟨hd0, hx⟩
      subst hd0
      have hxx := hnx rfl
      rcases hx with hx | hx
      · exact hxx.1 hx
      · exact hxx.2 hx
    | cons d2 dsr2 =>
      refine ⟨d2, dsr2 ++ t :: ts, rfl, ?_⟩
      rintro ⟨-, hx⟩
      have hd2 : isDigit d2 = true := hds d2 (by simp)
      have hd2v : digitVal 10 d2 ≠ none := by
        intro hn
        simp only [isDigit, hn, Option.isSome_none] at hd2
        exact Bool.false_ne_true hd2
      rcases hx with hx | hx
      · exact (digit_ne d2 hd2v 'x' (by decide)) hx
      · exact (digit_ne d2 hd2v 'X' (by decide)) hx
  obtain ⟨c1, rest1, hr, hcondfalse⟩ := hcond
  have hparse : parseIntJS s = some (v : Int) := by
    simp only [parseIntJS, hdrop, hr]
    simp only [hminus, hplus, if_false, if_neg hcondfalse]
    rw [← hr, hmagbody, hv]
    simp
  have hlead : leadingDigitsVal s = some v := by
    have htake := takeWhile_digits (d :: dsr) t ts hds ht
    simp only [leadingDigitsVal, hsplit, htake]
    exact hv
  refine ⟨v, hlead, hparse, ?_, ?_, ?_⟩
  · intro users u hfd
    simp [getUser, hparse, hfd]
  · intro users i name? email? hfind hi
    have h := updateUser_found users s (v : Int) i name? email? hparse hfind hi
    simpa [List.get_eq_getElem] using h
  · intro users i hfind hi
    have h := deleteUser_found users s (v : Int) i hparse hfind hi
    simpa [List.get_eq_getElem] using h

/-- Witness for C8 (amended): the segment "2abc" parses to 2 and drives the
three handlers by id 2. -/
theorem digit_trail_parses_witness :
    ∃ v : Nat,
      leadingDigitsVal "2abc" = some v ∧
      parseIntJS "2abc" = some (v : Int) ∧
      (∀ users : List User, ∀ u : User,
        users.find? (fun x => x.id == (v : Int)) = some u →
          getUser users "2abc" = ⟨200, true, none, some u⟩) ∧
      (∀ users : List User, ∀ i : Nat, ∀ name? email? : Option String,
        ∀ _hf : users.findIdx? (fun x => x.id == (v : Int)) = some i,
        ∀ hl : i < users.length,
          updateUser users "2abc" name? email? =
            (⟨200, true, some "User updated successfully",
               some (applyBody (users.get ⟨i, hl⟩) name? email?)⟩,
             users.set i (applyBody (users.get ⟨i, hl⟩) name? email?))) ∧
      (∀ users : List User, ∀ i : Nat,
        ∀ _hf : users.findIdx? (fun x => x.id == (v : Int)) = some i,
        ∀ hl : i < users.length,
          deleteUser users "2abc" =
            (⟨200, true, some "User deleted successfully",
               some (users.get ⟨i, hl⟩)⟩,
             users.eraseIdx i)) :=
  digit_trail_parses "2abc" ['2'] ['b', 'c'] 'a'
    (by decide) (by decide) (by decide) (by decide) (by decide)

end Server
